import Mathlib

/-!
Shallow embedding of `src/automation/vapoursynth/aegisub_vs.py`.

Pure string/list manipulation is translated directly; the regular expressions
`lwindex_re1`, `lwindex_re2` and `streaminfo_re` (which consist only of literal
text, `-?[0-9]+`, `[0-9/]+` and `[0-9a-zA-Z]+` groups, matched with `re.match`,
i.e. anchored at the start with arbitrary trailing text) are translated into
maximal-munch parsers, which agree with the regex semantics because no
character class in these patterns can consume the first character of the
literal that follows it.  Calls into VapourSynth plugins are modelled by
explicit availability/outcome parameters.  Python exceptions are modelled with
`Except`/`Option`.
-/

namespace AegisubVS

/-! ### Python primitives -/

/-- Python `s[-(n):]` for `n > 0`: the last `min (length s) n` characters. -/
def pyTakeLast (s : String) (n : Nat) : String :=
  ⟨s.data.drop (s.data.length - n)⟩

/-- Python list indexing `l[i]`, including negative wrap-around indexing;
`none` models an `IndexError`. -/
def pyGetStr (l : List String) (i : Int) : Option String :=
  if 0 ≤ i then l.get? i.toNat
  else if 0 ≤ (l.length : Int) + i then l.get? ((l.length : Int) + i).toNat
  else none

/-- Value of a list of decimal digits (Python `int` on a digit string). -/
def digitsVal (ds : List Char) : Nat :=
  ds.foldl (fun a c => a * 10 + (c.toNat - 48)) 0

/-- Python `int(s)` restricted to the strings that can appear here (the
matched groups contain only characters from `[0-9/]`, split on `/`): a
non-empty all-digit string parses, anything else raises `ValueError`. -/
def pyInt? (s : String) : Option Int :=
  match s.data with
  | [] => none
  | l => if l.all Char.isDigit then some ((digitsVal l : Nat) : Int) else none

/-! ### make_lwi_cache_filename (source lines 37-48) -/

/-- Embedding of `make_lwi_cache_filename`.  Note the source truncates with
`filename[-(max_len + len(extension)):]`, i.e. it keeps the last
`max_len + len(extension) = 258` characters. -/
def make_lwi_cache_filename (filename : String) : String :=
  let max_len : Nat := 254
  let extension : String := ".lwi"
  let filename1 :=
    if filename.length + extension.length > max_len then
      pyTakeLast filename (max_len + extension.length)
    else filename
  ⟨filename1.data.map (fun c => if c = '/' ∨ c = '\\' ∨ c = ':' then '_' else c)⟩
    ++ extension

/-! ### make_keyframes_filename (source lines 51-57) -/

/-- Embedding of `make_keyframes_filename`: `extlen = filename[::-1].find(".") + 1`
(`find` yields `-1` when there is no dot, so `extlen = 0` in that case),
then `filename[:len(filename) - extlen] + " keyframes.txt"`. -/
def make_keyframes_filename (filename : String) : String :=
  let extlen : Nat :=
    match filename.data.reverse.findIdx? (· == '.') with
    | some i => i + 1
    | none => 0
  ⟨filename.data.take (filename.data.length - extlen)⟩ ++ " keyframes.txt"

/-! ### save_keyframes (source lines 161-169) -/

/-- Embedding of `save_keyframes`: the full text written to the file
(the three `f.write` calls concatenated). -/
def save_keyframes (keyframes : List Int) : String :=
  "# keyframe format v1\n" ++ "fps 0\n"
    ++ String.join (keyframes.map (fun n => toString n ++ "\n"))

/-! ### make_keyframes plugin check (source lines 146-150) -/

/-- Which of the two scene-change detector plugins are present as attributes
on the VapourSynth core (accessing a missing one raises `AttributeError`). -/
structure VSCore where
  hasWwxd : Bool
  hasScxvid : Bool
deriving DecidableEq

/-- The message of the `vs.Error` raised by `make_keyframes` when the selected
detector plugin is missing. -/
def pluginErrorMessage (name : String) : String :=
  "To use the keyframe generation, the `" ++ name
    ++ "` plugin for VapourSynth must be installed"

/-- Embedding of the detector-selection step of `make_keyframes`:
`core.scxvid.Scxvid(clip, **kwargs) if use_scxvid else core.wwxd.WWXD(clip, **kwargs)`
wrapped in `try/except AttributeError`, which re-raises a `vs.Error` naming
the missing plugin. -/
def make_keyframes_detector (core : VSCore) (use_scxvid : Bool) :
    Except String Unit :=
  if use_scxvid then
    if core.hasScxvid then .ok () else .error (pluginErrorMessage "scxvid")
  else
    if core.hasWwxd then .ok () else .error (pluginErrorMessage "wwxd")

/-! ### The lwindex regular expressions (source lines 60-62) -/

/-- Consume an exact literal prefix, returning the remaining characters. -/
def dropLit : List Char → List Char → Option (List Char)
  | [], s => some s
  | _ :: _, [] => none
  | c :: cs, d :: ds => if c = d then dropLit cs ds else none

/-- Consume a non-empty maximal run of characters satisfying `p`
(a `[...]+` character class followed by a literal not starting with a class
character). -/
def parseClass (p : Char → Bool) (s : List Char) :
    Option (List Char × List Char) :=
  match s.takeWhile p with
  | [] => none
  | ds => some (ds, s.dropWhile p)

/-- `-?[0-9]+`, returning the integer value of the matched group
(Python `int` of the group). -/
def parseSignedInt (s : List Char) : Option (Int × List Char) :=
  match s with
  | '-' :: rest =>
    match parseClass Char.isDigit rest with
    | none => none
    | some (ds, r) => some (-(digitsVal ds : Int), r)
  | _ =>
    match parseClass Char.isDigit s with
    | none => none
    | some (ds, r) => some ((digitsVal ds : Int), r)

/-- `lwindex_re1.match(s)`, returning the `PTS` group as an integer:
`Index=(-?[0-9]+),POS=(-?[0-9]+),PTS=(-?[0-9]+),DTS=(-?[0-9]+),EDI=(-?[0-9]+)`
anchored at the start, arbitrary trailing text allowed. -/
def matchRe1 (s : String) : Option Int := do
  let r ← dropLit "Index=".data s.data
  let (_, r) ← parseSignedInt r
  let r ← dropLit ",POS=".data r
  let (_, r) ← parseSignedInt r
  let r ← dropLit ",PTS=".data r
  let (pts, r) ← parseSignedInt r
  let r ← dropLit ",DTS=".data r
  let (_, r) ← parseSignedInt r
  let r ← dropLit ",EDI=".data r
  let (_, _) ← parseSignedInt r
  pure pts

/-- `lwindex_re2.match(s)`, returning the `Key` group as an integer:
`Key=(-?[0-9]+),Pic=(-?[0-9]+),POC=(-?[0-9]+),Repeat=(-?[0-9]+),Field=(-?[0-9]+)`
anchored at the start, arbitrary trailing text allowed. -/
def matchRe2 (s : String) : Option Int := do
  let r ← dropLit "Key=".data s.data
  let (key, r) ← parseSignedInt r
  let r ← dropLit ",Pic=".data r
  let (_, r) ← parseSignedInt r
  let r ← dropLit ",POC=".data r
  let (_, r) ← parseSignedInt r
  let r ← dropLit ",Repeat=".data r
  let (_, r) ← parseSignedInt r
  let r ← dropLit ",Field=".data r
  let (_, _) ← parseSignedInt r
  pure key

/-- A character of the `TimeBase` class `[0-9/]`. -/
def isTimeBaseChar (c : Char) : Bool := c.isDigit || c == '/'

/-- A character of the `Format` class `[0-9a-zA-Z]`. -/
def isFormatChar (c : Char) : Bool := c.isDigit || c.isAlpha

/-- `streaminfo_re.match(s)`, returning the `TimeBase` group:
`Codec=([0-9]+),TimeBase=([0-9\/]+),Width=([0-9]+),Height=([0-9]+),Format=([0-9a-zA-Z]+),ColorSpace=([0-9]+)`
anchored at the start, arbitrary trailing text allowed. -/
def matchStreamInfo (s : String) : Option String := do
  let r ← dropLit "Codec=".data s.data
  let (_, r) ← parseClass Char.isDigit r
  let r ← dropLit ",TimeBase=".data r
  let (tb, r) ← parseClass isTimeBaseChar r
  let r ← dropLit ",Width=".data r
  let (_, r) ← parseClass Char.isDigit r
  let r ← dropLit ",Height=".data r
  let (_, r) ← parseClass Char.isDigit r
  let r ← dropLit ",Format=".data r
  let (_, r) ← parseClass isFormatChar r
  let r ← dropLit ",ColorSpace=".data r
  let (_, _) ← parseClass Char.isDigit r
  pure ⟨tb⟩

/-! ### LWIndexFrame and info_from_lwindex (source lines 65-103) -/

/-- The data `LWIndexFrame.__init__` extracts from a two-line frame block:
`self.pts = int(match1.group("PTS"))`, `self.key = int(match2.group("Key"))`. -/
structure LWIndexFrame where
  pts : Int
  key : Int
deriving DecidableEq, Repr

/-- The Python exceptions `info_from_lwindex` can raise:
`ValueError` from `list.index` (missing marker), `ValueError("Invalid lwindex
format")` from `LWIndexFrame.__init__` or the StreamInfo match, `IndexError`
from list indexing, `ValueError` from `int()`/tuple unpacking on the time
base, and `ZeroDivisionError` from `//`. -/
inductive LwiError where
  | markerMissing
  | invalidFrame
  | indexError
  | invalidStreamInfo
  | invalidTimeBase
  | divisionByZero
deriving DecidableEq, Repr

/-- Structural worker for the frame-building loop; `fuel` is only an upper
bound on the number of remaining loop iterations (any `fuel ≥ stop - i`
gives the loop's value, see `framesGo_congr_fuel`). -/
def framesGo (lines : List String) (stop : Nat) :
    Nat → Nat → Except LwiError (List LWIndexFrame)
  | 0, _ => .ok []
  | fuel + 1, i =>
    if i < stop then
      match (lines.drop i).take 2 with
      | l1 :: l2 :: _ =>
        match matchRe1 l1, matchRe2 l2 with
        | some pts, some key =>
          match framesGo lines stop fuel (i + 2) with
          | .ok rest => .ok (⟨pts, key⟩ :: rest)
          | .error e => .error e
        | _, _ => .error .invalidFrame
      | _ => .error .indexError
    else .ok []

/-- `[LWIndexFrame(index[i:i+2]) for i in range(indexstart, indexend, 2)]`:
builds the frame list, raising on the first invalid block.  A block is the
Python slice `index[i:i+2]`; a block with fewer than two lines raises
`IndexError` (`raw[1]` is evaluated before the match test). -/
def framesLoop (lines : List String) (stop : Nat) (i : Nat) :
    Except LwiError (List LWIndexFrame) :=
  framesGo lines stop (stop - i) i

/-- The first marker lookups and the frame-building loop of
`info_from_lwindex`:
`indexstart, indexend = index.index("</StreamInfo>") + 1, index.index("</LibavReaderIndex>")`
followed by the frame list comprehension. -/
def framesOf (lines : List String) : Except LwiError (List LWIndexFrame) :=
  match lines.findIdx? (· == "</StreamInfo>") with
  | none => .error .markerMissing
  | some sPos =>
    match lines.findIdx? (· == "</LibavReaderIndex>") with
    | none => .error .markerMissing
    | some ePos => framesLoop lines ePos (sPos + 1)

/-- Worker for `pySplit`: `acc` holds the current part, reversed. -/
def pySplitAux (sep : Char) : List Char → List Char → List String
  | [], acc => [⟨acc.reverse⟩]
  | c :: rest, acc =>
    if c = sep then ⟨acc.reverse⟩ :: pySplitAux sep rest []
    else pySplitAux sep rest (c :: acc)

/-- Python `s.split(sep)` for a one-character separator: splits at every
occurrence, keeping empty parts (`"1//2".split("/") == ["1", "", "2"]`,
`"".split("/") == [""]`). -/
def pySplit (sep : Char) (s : String) : List String :=
  pySplitAux sep s.data []

/-- `timebase_num, timebase_den = [int(i) for i in streaminfo.group("TimeBase").split("/")]`:
every `/`-separated part goes through `int()` (raising `ValueError` on an
empty part), then unpacking requires exactly two values.  Both failure modes
raise `ValueError`, so they are modelled by the same error value and the
conversion/unpacking order is not observable. -/
def parseTimeBase (tb : String) : Except LwiError (Int × Int) :=
  match pySplit '/' tb with
  | [a, b] =>
    match pyInt? a, pyInt? b with
    | some n, some d => .ok (n, d)
    | _, _ => .error .invalidTimeBase
  | _ => .error .invalidTimeBase

/-- The StreamInfo part of `info_from_lwindex`:
`streaminfo = streaminfo_re.match(index[indexstart - 2])` (note Python's
negative indexing when the marker is the first line), `ValueError` when the
match fails, then the time-base parse. -/
def timeBaseOf (lines : List String) : Except LwiError (Int × Int) :=
  match lines.findIdx? (· == "</StreamInfo>") with
  | none => .error .markerMissing
  | some sPos =>
    match pyGetStr lines ((sPos : Int) + 1 - 2) with
    | none => .error .indexError
    | some line =>
      match matchStreamInfo line with
      | none => .error .invalidStreamInfo
      | some tb => parseTimeBase tb

/-- The sort key of `frames.sort(key=int)`: `int(frame)` is `frame.pts`. -/
def ptsLE : LWIndexFrame → LWIndexFrame → Prop := fun a b => a.pts ≤ b.pts

instance : DecidableRel ptsLE := fun a b => Int.decLe a.pts b.pts

instance : IsTotal LWIndexFrame ptsLE := ⟨fun a b => Int.le_total a.pts b.pts⟩

instance : IsTrans LWIndexFrame ptsLE :=
  ⟨fun _ _ _ h1 h2 => Int.le_trans h1 h2⟩

/-- `frames.sort(key=int)`: Python's `list.sort` is a stable ascending sort
by the key, here `pts`.  A stable sort is uniquely determined by the key
order, so it is modelled by stable insertion sort. -/
def sortFrames (frames : List LWIndexFrame) : List LWIndexFrame :=
  frames.insertionSort ptsLE

/-- `[i for i, f in enumerate(frames) if f.key]` (`if f.key` is integer
truthiness, i.e. `key ≠ 0`). -/
def keyframeIndices (frames : List LWIndexFrame) : List Nat :=
  (frames.enum.filter (fun p => p.2.key != 0)).map Prod.fst

/-- The dictionary returned by `info_from_lwindex`. -/
structure LwiInfo where
  timecodes : List Int
  keyframes : List Nat
deriving DecidableEq, Repr

/-- Embedding of `info_from_lwindex`, over the list of lines of the index
file (`f.read().splitlines()`).  `//` is Python floor division (`Int.fdiv`);
Python raises `ZeroDivisionError` when `timebase_den = 0` and the timecodes
comprehension is non-empty. -/
def info_from_lwindex (lines : List String) : Except LwiError LwiInfo := do
  let fs ← framesOf lines
  let frames := sortFrames fs
  let (num, den) ← timeBaseOf lines
  if den = 0 ∧ frames ≠ [] then .error .divisionByZero
  else .ok { timecodes := frames.map (fun f => Int.fdiv (f.pts * 1000 * num) den),
             keyframes := keyframeIndices frames }

/-! ### check_audio (source lines 187-201) -/

/-- Possible outcomes of evaluating `vs.core.bas.Source(source=filename, ...)`:
the `bas` attribute may be missing (`AttributeError`), opening may fail
(`vs.Error`), or it succeeds. -/
inductive BasOutcome where
  | missingPlugin
  | openError
  | opened
deriving DecidableEq

/-- Embedding of `check_audio`, parameterised by the outcome of the probe:
both `AttributeError` (missing `bas` plugin) and `vs.Error` are caught and
fall through to `return False`. -/
def check_audio (probe : String → BasOutcome) (filename : String) : Bool :=
  match probe filename with
  | .opened => true
  | .missingPlugin => false
  | .openError => false

/-! ### Example index files -/

/-- The spec's synthetic example: time base `1/1000`, document-order PTS
`0, 40, 20`, keyframe flags `1, 0, 0`. -/
def exampleLines : List String :=
  ["Codec=1,TimeBase=1/1000,Width=640,Height=480,Format=YUV420P8,ColorSpace=1",
   "</StreamInfo>",
   "Index=0,POS=0,PTS=0,DTS=0,EDI=0",
   "Key=1,Pic=0,POC=0,Repeat=1,Field=0",
   "Index=0,POS=10,PTS=40,DTS=40,EDI=0",
   "Key=0,Pic=0,POC=0,Repeat=1,Field=0",
   "Index=0,POS=20,PTS=20,DTS=20,EDI=0",
   "Key=0,Pic=0,POC=0,Repeat=1,Field=0",
   "</LibavReaderIndex>"]

/-- An index file with two frames sharing the presentation timestamp 20:
the `key` fields 1 and 0 distinguish the two equal-PTS frames. -/
def exampleDupLines : List String :=
  ["Codec=1,TimeBase=1/1000,Width=640,Height=480,Format=YUV420P8,ColorSpace=1",
   "</StreamInfo>",
   "Index=0,POS=0,PTS=20,DTS=20,EDI=0",
   "Key=1,Pic=0,POC=0,Repeat=1,Field=0",
   "Index=0,POS=10,PTS=20,DTS=20,EDI=0",
   "Key=0,Pic=0,POC=0,Repeat=1,Field=0",
   "Index=0,POS=20,PTS=0,DTS=0,EDI=0",
   "Key=0,Pic=0,POC=0,Repeat=1,Field=0",
   "</LibavReaderIndex>"]

/-- An index file whose StreamInfo line has a malformed `Codec` field (the
letter `x`) but a perfectly well-formed `TimeBase` field `1/1000`, and whose
markers and frame blocks are all fine. -/
def exampleBadCodecLines : List String :=
  ["Codec=x,TimeBase=1/1000,Width=640,Height=480,Format=YUV420P8,ColorSpace=1",
   "</StreamInfo>",
   "Index=0,POS=0,PTS=0,DTS=0,EDI=0",
   "Key=1,Pic=0,POC=0,Repeat=1,Field=0",
   "</LibavReaderIndex>"]

/-- A frame block at line `i` that `LWIndexFrame.__init__` rejects: the first
line fails `lwindex_re1` or the second line fails `lwindex_re2`. -/
def frameBlockBad (lines : List String) (i : Nat) : Prop :=
  matchRe1 (lines.getD i "") = none ∨ matchRe2 (lines.getD (i + 1) "") = none

/-- A malformed time-base field: the text does not consist of exactly two
`/`-separated parts both accepted by `int()`. -/
def badTimeBase (tb : String) : Prop :=
  ¬ ∃ (a b : String) (n d : Int),
      pySplit '/' tb = [a, b] ∧ pyInt? a = some n ∧ pyInt? b = some d

/-! ## Theorems -/

set_option maxRecDepth 8000

/-- C1: the specification says the result of `make_lwi_cache_filename` never
exceeds the maximum length 254, the truncation keeping only enough trailing
characters for the extension to fit.  The code truncates with
`filename[-(max_len + len(extension)):]` (keeping 258 characters) instead of
`max_len - len(extension)` (250), so any filename of length 251 or more
yields a result longer than 254: a 251-character name maps to 255 characters,
and from 258 input characters on the result has length 262. -/
theorem make_lwi_cache_filename_exceeds_max :
    (make_lwi_cache_filename ⟨List.replicate 251 'a'⟩).length = 255 ∧
    (make_lwi_cache_filename ⟨List.replicate 300 'a'⟩).length = 262 := by
  constructor <;> decide

/-- C7 counterexample: with the WWXD plugin installed (so at least one
scene-change detector is available) but Scxvid missing, calling
`make_keyframes` with `use_scxvid=True` still fails with the
missing-plugin error, contradicting the claim that no missing-capability
failure occurs whenever at least one detector plugin is available. -/
theorem make_keyframes_one_detector_still_fails :
    (VSCore.mk true false).hasWwxd = true ∧
    make_keyframes_detector ⟨true, false⟩ true =
      .error (pluginErrorMessage "scxvid") :=
  ⟨rfl, rfl⟩

/-- C7 amended: `make_keyframes` fails with the descriptive error naming the
missing plugin exactly when the *selected* detector plugin (Scxvid when
`use_scxvid` is true, WWXD otherwise) is unavailable; when the selected
detector is available the detector step does not fail. -/
theorem make_keyframes_detector_spec (core : VSCore) (use_scxvid : Bool) :
    (make_keyframes_detector core use_scxvid =
        .error (pluginErrorMessage (if use_scxvid then "scxvid" else "wwxd")) ↔
      (if use_scxvid then core.hasScxvid else core.hasWwxd) = false) ∧
    ((if use_scxvid then core.hasScxvid else core.hasWwxd) = true →
      make_keyframes_detector core use_scxvid = .ok ()) := by
  obtain ⟨w, s⟩ := core
  cases use_scxvid <;> cases w <;> cases s <;>
    simp [make_keyframes_detector, pluginErrorMessage]

/-- C7 witness: the amended statement instantiated at a core with neither
plugin and `use_scxvid=True`. -/
theorem make_keyframes_detector_spec_witness :
    (make_keyframes_detector ⟨false, false⟩ true =
        .error (pluginErrorMessage (if true then "scxvid" else "wwxd")) ↔
      (if (true : Bool) then (VSCore.mk false false).hasScxvid
       else (VSCore.mk false false).hasWwxd) = false) ∧
    ((if (true : Bool) then (VSCore.mk false false).hasScxvid
      else (VSCore.mk false false).hasWwxd) = true →
      make_keyframes_detector ⟨false, false⟩ true = .ok ()) :=
  make_keyframes_detector_spec ⟨false, false⟩ true

/-- Every character `Nat.toDigitsCore` can add to the accumulator is a
decimal digit (the base is 10, so `digitChar` is only applied below 10). -/
theorem toDigitsCore_digits (fuel n : Nat) (ds : List Char)
    (hds : ∀ c ∈ ds, c.isDigit = true) :
    ∀ c ∈ Nat.toDigitsCore 10 fuel n ds, c.isDigit = true := by
  induction fuel generalizing n ds with
  | zero => exact hds
  | succ fuel ih =>
    have hd : (Nat.digitChar (n % 10)).isDigit = true := by
      have h10 : n % 10 < 10 := Nat.mod_lt _ (by omega)
      have : ∀ k, k < 10 → (Nat.digitChar k).isDigit = true := by decide
      exact this _ h10
    have hcons : ∀ c ∈ Nat.digitChar (n % 10) :: ds, c.isDigit = true := by
      intro c hc
      rcases List.mem_cons.mp hc with rfl | hc
      · exact hd
      · exact hds c hc
    rw [Nat.toDigitsCore]
    by_cases h0 : n / 10 = 0
    · simpa [h0] using hcons
    · simpa [h0] using ih (n / 10) _ hcons

/-- The decimal representation of an integer contains no newline. -/
theorem toString_int_no_newline (n : Int) : ∀ c ∈ (toString n).data, c ≠ '\n' := by
  have hnat : ∀ m : Nat, ∀ c ∈ (Nat.repr m).data, c ≠ '\n' := by
    intro m c hc
    have : c.isDigit = true :=
      toDigitsCore_digits (m + 1) m [] (by intro c h; cases h) c hc
    intro h
    rw [h] at this
    exact absurd this (by decide)
  cases n with
  | ofNat m => exact hnat m
  | negSucc m =>
    intro c hc
    have : c ∈ ("-" ++ Nat.repr (m + 1)).data := hc
    rw [String.data_append] at this
    rcases List.mem_append.mp this with h | h
    · rcases List.mem_singleton.mp h with rfl
      decide
    · exact hnat (m + 1) c h

/-- Splitting a text of the form `s ++ sep :: rest` where `s` is free of the
separator: the first emitted part is the pending accumulator followed by `s`. -/
theorem pySplitAux_append_sep (sep : Char) (s : List Char)
    (hs : ∀ c ∈ s, c ≠ sep) (rest acc : List Char) :
    pySplitAux sep (s ++ sep :: rest) acc =
      ⟨acc.reverse ++ s⟩ :: pySplitAux sep rest [] := by
  induction s generalizing acc with
  | nil => simp [pySplitAux]
  | cons c s ih =>
    have hc : c ≠ sep := hs c (List.mem_cons_self ..)
    have step : pySplitAux sep ((c :: s) ++ sep :: rest) acc
        = pySplitAux sep (s ++ sep :: rest) (c :: acc) := by
      show pySplitAux sep (c :: (s ++ sep :: rest)) acc = _
      rw [pySplitAux, if_neg hc]
    rw [step, ih (fun d hd => hs d (List.mem_cons_of_mem _ hd))]
    simp

/-- Splitting the frame-index body of the keyframe file: one line per index. -/
theorem pySplitAux_body (keyframes : List Int) :
    pySplitAux '\n'
        ((keyframes.map (fun n => toString n ++ "\n")).map String.data).flatten [] =
      keyframes.map toString ++ [""] := by
  induction keyframes with
  | nil => rfl
  | cons n tl ih =>
    have hdata : (toString n ++ "\n").data = (toString n).data ++ '\n' :: [] := by
      simp
    simp only [List.map_cons, List.flatten_cons, hdata, List.append_assoc,
      List.nil_append, List.cons_append]
    rw [pySplitAux_append_sep '\n' (toString n).data
      (toString_int_no_newline n) _ []]
    rw [ih]
    simp

/-- C9: the text written by `save_keyframes` splits at newlines into the
literal header line `"# keyframe format v1"`, then `"fps 0"`, then exactly
one line per keyframe index, in order, and nothing else (the final `""` is
the empty remainder after the terminating newline of the last line). -/
theorem save_keyframes_lines (keyframes : List Int) :
    pySplit '\n' (save_keyframes keyframes) =
      "# keyframe format v1" :: "fps 0" :: (keyframes.map toString ++ [""]) := by
  have hjoin : (String.join (keyframes.map (fun n => toString n ++ "\n"))).data =
      ((keyframes.map (fun n => toString n ++ "\n")).map String.data).flatten := by
    rw [String.join_eq]
  have hdata : (save_keyframes keyframes).data =
      "# keyframe format v1".data ++ '\n' ::
        ("fps 0".data ++ '\n' ::
          ((keyframes.map (fun n => toString n ++ "\n")).map String.data).flatten) := by
    simp [save_keyframes, hjoin]
  rw [pySplit, hdata]
  rw [pySplitAux_append_sep '\n' "# keyframe format v1".data (by decide) _ []]
  rw [pySplitAux_append_sep '\n' "fps 0".data (by decide) _ []]
  rw [pySplitAux_body]
  rfl

/-- Decomposition given by a successful character search: the list splits at
the first occurrence. -/
theorem findIdx_dot_decomp (l : List Char) (i : Nat)
    (h : l.findIdx? (· == '.') = some i) :
    ∃ t d, l = t ++ '.' :: d ∧ t.length = i ∧ '.' ∉ t := by
  induction l generalizing i with
  | nil => simp at h
  | cons c rest ih =>
    rw [List.findIdx?_cons] at h
    by_cases hc : c = '.'
    · rw [if_pos (by simp [hc])] at h
      obtain rfl : (0 : Nat) = i := by simpa using h
      exact ⟨[], rest, by simp [hc], rfl, by simp⟩
    · rw [if_neg (by simp [hc]), List.findIdx?_succ] at h
      obtain ⟨j, hj, hij⟩ := Option.map_eq_some'.mp h
      obtain ⟨t, d, rfl, hlen, hnt⟩ := ih j hj
      refine ⟨c :: t, d, rfl, by simpa [hlen] using hij, ?_⟩
      intro hmem
      rcases List.mem_cons.mp hmem with h1 | h1
      · exact hc h1.symm
      · exact hnt h1

/-- C10: when the filename contains no `'.'`, `make_keyframes_filename`
appends `" keyframes.txt"` to the whole unmodified filename; when it does,
exactly the suffix starting at the last `'.'` is removed first. -/
theorem make_keyframes_filename_spec (filename : String) :
    ('.' ∉ filename.data →
      make_keyframes_filename filename = filename ++ " keyframes.txt") ∧
    ('.' ∈ filename.data →
      ∃ a b : List Char, filename.data = a ++ '.' :: b ∧ '.' ∉ b ∧
        make_keyframes_filename filename = String.mk a ++ " keyframes.txt") := by
  constructor
  · intro h
    have hnone : filename.data.reverse.findIdx? (· == '.') = none := by
      rw [List.findIdx?_eq_none_iff]
      intro x hx
      have : x ≠ '.' := fun he => h (he ▸ List.mem_reverse.mp hx)
      exact beq_false_of_ne this
    rw [make_keyframes_filename, hnone]
    simp only [Nat.sub_zero, List.take_length]
  · intro h
    have hsome : ∃ i, filename.data.reverse.findIdx? (· == '.') = some i := by
      rw [← Option.isSome_iff_exists, List.findIdx?_isSome, List.any_eq_true]
      exact ⟨'.', List.mem_reverse.mpr h, by decide⟩
    obtain ⟨i, hi⟩ := hsome
    obtain ⟨t, d, hrev, hlen, hnt⟩ := findIdx_dot_decomp _ _ hi
    have hdata : filename.data = d.reverse ++ '.' :: t.reverse := by
      have := congrArg List.reverse hrev
      simpa using this
    refine ⟨d.reverse, t.reverse, hdata, ?_, ?_⟩
    · intro hb
      exact hnt (List.mem_reverse.mp hb)
    · rw [make_keyframes_filename, hi]
      have hlength : filename.data.length - (i + 1) = d.reverse.length := by
        rw [hdata]
        simp [← hlen]
      rw [hlength, hdata, List.take_left]

/-- C10 witness: the spec's own example `path/to/file.mkv`, which contains a
dot, and a dotless name. -/
theorem make_keyframes_filename_spec_witness :
    ('.' ∈ "path/to/file.mkv".data ∧
      ∃ a b : List Char, "path/to/file.mkv".data = a ++ '.' :: b ∧ '.' ∉ b ∧
        make_keyframes_filename "path/to/file.mkv" = String.mk a ++ " keyframes.txt") ∧
    ('.' ∉ "noext".data ∧
      make_keyframes_filename "noext" = "noext" ++ " keyframes.txt") :=
  ⟨⟨by decide, (make_keyframes_filename_spec "path/to/file.mkv").2 (by decide)⟩,
   ⟨by decide, (make_keyframes_filename_spec "noext").1 (by decide)⟩⟩

/-- C8: `check_audio` returns `False` (it does not propagate an exception)
when the `bas` plugin is absent, the same value it returns when opening the
audio fails. -/
theorem check_audio_missing_plugin_false (probe : String → BasOutcome)
    (filename : String) (h : probe filename = .missingPlugin) :
    check_audio probe filename = false ∧
    check_audio probe filename =
      check_audio (fun _ => BasOutcome.openError) filename := by
  simp [check_audio, h]

/-- C8 witness: a probe whose `bas` attribute lookup fails on the concrete
file name "video.mkv". -/
theorem check_audio_missing_plugin_false_witness :
    check_audio (fun _ => BasOutcome.missingPlugin) "video.mkv" = false ∧
    check_audio (fun _ => BasOutcome.missingPlugin) "video.mkv" =
      check_audio (fun _ => BasOutcome.openError) "video.mkv" :=
  check_audio_missing_plugin_false (fun _ => BasOutcome.missingPlugin)
    "video.mkv" rfl

/-! ### Inverting info_from_lwindex -/

theorem except_bind_ok {ε α β : Type} {x : Except ε α} (g : α → Except ε β) {a : α}
    (h : x = .ok a) : x >>= g = g a := by rw [h]; rfl

theorem except_bind_error {ε α β : Type} {x : Except ε α} (g : α → Except ε β) {e : ε}
    (h : x = .error e) : x >>= g = .error e := by rw [h]; rfl

theorem info_ok_elim {lines : List String} {r : LwiInfo}
    (h : info_from_lwindex lines = .ok r) :
    ∃ fs num den, framesOf lines = .ok fs ∧ timeBaseOf lines = .ok (num, den) ∧
      ¬(den = 0 ∧ sortFrames fs ≠ []) ∧
      r = ⟨(sortFrames fs).map (fun f => Int.fdiv (f.pts * 1000 * num) den),
           keyframeIndices (sortFrames fs)⟩ := by
  unfold info_from_lwindex at h
  cases hf : framesOf lines with
  | error e => rw [except_bind_error _ hf] at h; cases h
  | ok fs =>
    rw [except_bind_ok _ hf] at h
    cases ht : timeBaseOf lines with
    | error e => rw [except_bind_error _ ht] at h; cases h
    | ok p =>
      obtain ⟨num, den⟩ := p
      rw [except_bind_ok _ ht] at h
      dsimp only at h
      by_cases hc : den = 0 ∧ sortFrames fs ≠ []
      · rw [if_pos hc] at h; cases h
      · rw [if_neg hc] at h
        refine ⟨fs, num, den, rfl, rfl, hc, ?_⟩
        cases h
        rfl

theorem keyframeIndices_mem (fs : List LWIndexFrame) (i : Nat) :
    i ∈ keyframeIndices fs ↔ ∃ f, fs[i]? = some f ∧ f.key ≠ 0 := by
  unfold keyframeIndices
  constructor
  · intro hi
    obtain ⟨⟨j, f⟩, hmem, rfl⟩ := List.mem_map.mp hi
    obtain ⟨hmem2, hkey⟩ := List.mem_filter.mp hmem
    exact ⟨f, List.mk_mem_enum_iff_getElem?.mp hmem2, by simpa using hkey⟩
  · rintro ⟨f, hget, hkey⟩
    exact List.mem_map.mpr ⟨(i, f),
      List.mem_filter.mpr ⟨List.mk_mem_enum_iff_getElem?.mpr hget, by simpa using hkey⟩, rfl⟩

theorem le_fst_of_mem_enumFrom {α : Type} {l : List α} {n : Nat} {p : Nat × α}
    (h : p ∈ l.enumFrom n) : n ≤ p.1 := by
  induction l generalizing n with
  | nil => simp at h
  | cons a l ih =>
    rw [List.enumFrom_cons] at h
    rcases List.mem_cons.mp h with rfl | h
    · exact Nat.le_refl n
    · exact Nat.le_of_succ_le (ih h)

theorem pairwise_fst_lt_enumFrom {α : Type} (l : List α) (n : Nat) :
    (l.enumFrom n).Pairwise (fun p q => p.1 < q.1) := by
  induction l generalizing n with
  | nil => simp
  | cons a l ih =>
    rw [List.enumFrom_cons]
    refine List.Pairwise.cons ?_ (ih (n + 1))
    intro q hq
    exact Nat.lt_of_lt_of_le (Nat.lt_succ_self n) (le_fst_of_mem_enumFrom hq)

theorem keyframeIndices_pairwise (fs : List LWIndexFrame) :
    (keyframeIndices fs).Pairwise (· < ·) := by
  unfold keyframeIndices
  exact List.Pairwise.map _ (fun p q h => h)
    ((pairwise_fst_lt_enumFrom fs 0).filter _)

theorem keyframeIndices_lt (fs : List LWIndexFrame) :
    ∀ i ∈ keyframeIndices fs, i < fs.length := by
  intro i hi
  obtain ⟨f, hget, _⟩ := (keyframeIndices_mem fs i).mp hi
  obtain ⟨hlt, _⟩ := List.getElem?_eq_some_iff.mp hget
  exact hlt

theorem pyInt?_nonneg {s : String} {v : Int} (h : pyInt? s = some v) : 0 ≤ v := by
  unfold pyInt? at h
  split at h
  · exact Option.noConfusion h
  · split at h
    · cases h
      exact Int.natCast_nonneg _
    · exact Option.noConfusion h

theorem parseTimeBase_nonneg {tb : String} {num den : Int}
    (h : parseTimeBase tb = .ok (num, den)) : 0 ≤ num ∧ 0 ≤ den := by
  unfold parseTimeBase at h
  split at h
  · split at h
    · rename_i n d hn hd
      cases h
      exact ⟨pyInt?_nonneg hn, pyInt?_nonneg hd⟩
    · exact Except.noConfusion h
  · exact Except.noConfusion h

theorem timeBaseOf_nonneg {lines : List String} {num den : Int}
    (h : timeBaseOf lines = .ok (num, den)) : 0 ≤ num ∧ 0 ≤ den := by
  unfold timeBaseOf at h
  split at h
  · exact Except.noConfusion h
  · split at h
    · exact Except.noConfusion h
    · split at h
      · exact Except.noConfusion h
      · exact parseTimeBase_nonneg h

theorem sortFrames_stable (fs : List LWIndexFrame) (c : Int) :
    (sortFrames fs).filter (fun f => decide (f.pts = c)) =
      fs.filter (fun f => decide (f.pts = c)) := by
  have hpair : (fs.filter (fun f => decide (f.pts = c))).Pairwise ptsLE := by
    apply List.pairwise_of_forall_mem_list
    intro a ha b hb
    have ha2 : a.pts = c := of_decide_eq_true (List.mem_filter.mp ha).2
    have hb2 : b.pts = c := of_decide_eq_true (List.mem_filter.mp hb).2
    show a.pts ≤ b.pts
    rw [ha2, hb2]
  have hsub : List.Sublist (fs.filter (fun f => decide (f.pts = c))) (sortFrames fs) :=
    List.sublist_insertionSort hpair (List.filter_sublist fs)
  have hself : (fs.filter (fun f => decide (f.pts = c))).filter
      (fun f => decide (f.pts = c)) = fs.filter (fun f => decide (f.pts = c)) :=
    List.filter_eq_self.mpr (fun a ha => (List.mem_filter.mp ha).2)
  have hsub2 : List.Sublist (fs.filter (fun f => decide (f.pts = c)))
      ((sortFrames fs).filter (fun f => decide (f.pts = c))) := by
    have h2 := hsub.filter (fun f => decide (f.pts = c))
    rwa [hself] at h2
  have hperm : List.Perm ((sortFrames fs).filter (fun f => decide (f.pts = c)))
      (fs.filter (fun f => decide (f.pts = c))) :=
    (List.perm_insertionSort ptsLE fs).filter _
  exact (hsub2.eq_of_length hperm.length_eq.symm).symm

/-- C2: for every index file accepted by `info_from_lwindex`, the
`timecodes` sequence has one entry per frame record and its `i`-th entry is
`(pts * 1000 * num) // den` (Python floor division, `Int.fdiv`) of the
`i`-th frame once the frames are sorted by presentation timestamp
(`sortFrames fs` is a pts-sorted permutation of the parsed frames), with
`num`/`den` the rational time base parsed from the StreamInfo line. -/
theorem info_from_lwindex_timecodes {lines : List String} {r : LwiInfo}
    (h : info_from_lwindex lines = .ok r) :
    ∃ fs num den, framesOf lines = .ok fs ∧ timeBaseOf lines = .ok (num, den) ∧
      List.Perm (sortFrames fs) fs ∧
      (sortFrames fs).Pairwise (fun a b => a.pts ≤ b.pts) ∧
      r.timecodes = (sortFrames fs).map (fun f => Int.fdiv (f.pts * 1000 * num) den) := by
  obtain ⟨fs, num, den, hf, ht, _, rfl⟩ := info_ok_elim h
  exact ⟨fs, num, den, hf, ht, List.perm_insertionSort _ _,
    List.sorted_insertionSort ptsLE fs, rfl⟩

/-- C2 witness: the spec's synthetic example, time base `1/1000`,
document-order PTS `0, 40, 20`, giving timecodes `[0, 20, 40]`. -/
theorem info_from_lwindex_timecodes_witness :
    ∃ fs num den, framesOf exampleLines = .ok fs ∧
      timeBaseOf exampleLines = .ok (num, den) ∧
      List.Perm (sortFrames fs) fs ∧
      (sortFrames fs).Pairwise (fun a b => a.pts ≤ b.pts) ∧
      (LwiInfo.mk [0, 20, 40] [0]).timecodes =
        (sortFrames fs).map (fun f => Int.fdiv (f.pts * 1000 * num) den) :=
  @info_from_lwindex_timecodes exampleLines ⟨[0, 20, 40], [0]⟩ rfl

/-- C3: for every index file accepted by `info_from_lwindex`, the
`keyframes` sequence holds exactly the zero-based positions, in
timestamp-sorted order, of the frames whose keyframe flag is nonzero, and
it is strictly increasing. -/
theorem info_from_lwindex_keyframes {lines : List String} {r : LwiInfo}
    (h : info_from_lwindex lines = .ok r) :
    ∃ fs, framesOf lines = .ok fs ∧
      (∀ i, i ∈ r.keyframes ↔ ∃ f, (sortFrames fs)[i]? = some f ∧ f.key ≠ 0) ∧
      r.keyframes.Pairwise (· < ·) := by
  obtain ⟨fs, num, den, hf, ht, _, rfl⟩ := info_ok_elim h
  exact ⟨fs, hf, fun i => keyframeIndices_mem _ i, keyframeIndices_pairwise _⟩

/-- C3 witness: the spec's synthetic example, keyframe flags `1, 0, 0` in
document order giving keyframe index list `[0]`. -/
theorem info_from_lwindex_keyframes_witness :
    ∃ fs, framesOf exampleLines = .ok fs ∧
      (∀ i, i ∈ (LwiInfo.mk [0, 20, 40] [0]).keyframes ↔
        ∃ f, (sortFrames fs)[i]? = some f ∧ f.key ≠ 0) ∧
      (LwiInfo.mk [0, 20, 40] [0]).keyframes.Pairwise (· < ·) :=
  @info_from_lwindex_keyframes exampleLines ⟨[0, 20, 40], [0]⟩ rfl

/-- C5: the sort performed by `info_from_lwindex` is stable: for every
parsed frame list and every timestamp value `c`, the frames with timestamp
`c` appear in the sorted output in exactly their document order (the filter
of the sorted list equals the filter of the original list). -/
theorem info_from_lwindex_stable {lines : List String} {fs : List LWIndexFrame}
    (_h : framesOf lines = .ok fs) (c : Int) :
    (sortFrames fs).filter (fun f => decide (f.pts = c)) =
      fs.filter (fun f => decide (f.pts = c)) :=
  sortFrames_stable fs c

/-- C5 witness: an index file with two frames sharing PTS 20, distinguished
by their key flags; they keep their document order after sorting. -/
theorem info_from_lwindex_stable_witness :
    (sortFrames [⟨20, 1⟩, ⟨20, 0⟩, ⟨0, 0⟩]).filter (fun f => decide (f.pts = 20)) =
      ([⟨20, 1⟩, ⟨20, 0⟩, ⟨0, 0⟩] : List LWIndexFrame).filter
        (fun f => decide (f.pts = 20)) :=
  @info_from_lwindex_stable exampleDupLines [⟨20, 1⟩, ⟨20, 0⟩, ⟨0, 0⟩] rfl 20

/-- C6: for every index file accepted by `info_from_lwindex`, `timecodes`
has exactly one entry per parsed frame record, every element of `keyframes`
is a valid index into `timecodes`, and `timecodes` is non-decreasing. -/
theorem info_from_lwindex_shape {lines : List String} {r : LwiInfo}
    (h : info_from_lwindex lines = .ok r) :
    ∃ fs, framesOf lines = .ok fs ∧
      r.timecodes.length = fs.length ∧
      (∀ i ∈ r.keyframes, i < r.timecodes.length) ∧
      r.timecodes.Pairwise (· ≤ ·) := by
  obtain ⟨fs, num, den, hf, ht, hnz, rfl⟩ := info_ok_elim h
  have hnn := timeBaseOf_nonneg ht
  refine ⟨fs, hf, ?_, ?_, ?_⟩
  · simp [sortFrames]
  · intro i hi
    have h1 := keyframeIndices_lt _ i hi
    simpa [sortFrames] using h1
  · by_cases hd : den = 0
    · have hempty : sortFrames fs = [] := by
        by_contra hne
        exact hnz ⟨hd, hne⟩
      simp [hempty]
    · have hdpos : 0 < den := lt_of_le_of_ne hnn.2 (Ne.symm hd)
      refine List.Pairwise.map _ ?_ (List.sorted_insertionSort ptsLE fs)
      intro a b hab
      have h1 : a.pts * 1000 * num ≤ b.pts * 1000 * num := by
        apply mul_le_mul_of_nonneg_right _ hnn.1
        exact mul_le_mul_of_nonneg_right hab (by norm_num)
      show Int.fdiv (a.pts * 1000 * num) den ≤ Int.fdiv (b.pts * 1000 * num) den
      rw [Int.fdiv_eq_ediv _ hnn.2, Int.fdiv_eq_ediv _ hnn.2]
      exact Int.ediv_le_ediv hdpos h1

/-- C6 witness: the spec's synthetic example. -/
theorem info_from_lwindex_shape_witness :
    ∃ fs, framesOf exampleLines = .ok fs ∧
      (LwiInfo.mk [0, 20, 40] [0]).timecodes.length = fs.length ∧
      (∀ i ∈ (LwiInfo.mk [0, 20, 40] [0]).keyframes,
        i < (LwiInfo.mk [0, 20, 40] [0]).timecodes.length) ∧
      (LwiInfo.mk [0, 20, 40] [0]).timecodes.Pairwise (· ≤ ·) :=
  @info_from_lwindex_shape exampleLines ⟨[0, 20, 40], [0]⟩ rfl

/-! ### Error characterisation of info_from_lwindex -/

theorem framesGo_zero (lines : List String) (stop i : Nat) :
    framesGo lines stop 0 i = .ok [] := rfl

theorem framesGo_succ (lines : List String) (stop fuel i : Nat) :
    framesGo lines stop (fuel + 1) i =
      if i < stop then
        match (lines.drop i).take 2 with
        | l1 :: l2 :: _ =>
          match matchRe1 l1, matchRe2 l2 with
          | some pts, some key =>
            match framesGo lines stop fuel (i + 2) with
            | .ok rest => .ok (⟨pts, key⟩ :: rest)
            | .error e => .error e
          | _, _ => .error .invalidFrame
        | _ => .error .indexError
      else .ok [] := rfl

theorem drop_take_two {lines : List String} {i : Nat} (h : i + 1 < lines.length) :
    (lines.drop i).take 2 = [lines.getD i "", lines.getD (i + 1) ""] := by
  have h0 : i < lines.length := by omega
  have g1 : lines.getD i "" = lines[i] := by
    simp [List.getD_eq_getElem?_getD, List.getElem?_eq_getElem h0]
  have g2 : lines.getD (i + 1) "" = lines[i + 1] := by
    simp [List.getD_eq_getElem?_getD, List.getElem?_eq_getElem h]
  rw [List.drop_eq_getElem_cons h0, List.drop_eq_getElem_cons h, g1, g2]
  rfl

theorem framesGo_error_kinds {lines : List String} {stop fuel i : Nat} {e : LwiError}
    (h : framesGo lines stop fuel i = .error e) :
    e = .invalidFrame ∨ e = .indexError := by
  induction fuel generalizing i with
  | zero => exact Except.noConfusion h
  | succ fuel ih =>
    rw [framesGo_succ] at h
    by_cases hlt : i < stop
    · rw [if_pos hlt] at h
      split at h
      · split at h
        · split at h
          · exact Except.noConfusion h
          · rename_i e2 hrec
            cases h
            exact ih hrec
        · cases h
          exact Or.inl rfl
      · cases h
        exact Or.inr rfl
    · rw [if_neg hlt] at h
      exact Except.noConfusion h

theorem framesGo_error_iff (lines : List String) (stop : Nat)
    (hstop : stop < lines.length) :
    ∀ fuel i, stop - i ≤ fuel →
      ((∃ e, framesGo lines stop fuel i = .error e) ↔
        ∃ j, i ≤ j ∧ j < stop ∧ (j - i) % 2 = 0 ∧ frameBlockBad lines j) := by
  intro fuel
  induction fuel with
  | zero =>
    intro i hi
    constructor
    · rintro ⟨e, he⟩
      exact Except.noConfusion he
    · rintro ⟨j, h1, h2, _, _⟩
      omega
  | succ fuel ih =>
    intro i hfuel
    by_cases hlt : i < stop
    · have hi1 : i + 1 < lines.length := by omega
      rw [framesGo_succ, if_pos hlt, drop_take_two hi1]
      dsimp only
      constructor
      · rintro ⟨e, he⟩
        cases h1 : matchRe1 (lines.getD i "") with
        | none => exact ⟨i, Nat.le_refl i, hlt, by omega, Or.inl h1⟩
        | some pts =>
          cases h2 : matchRe2 (lines.getD (i + 1) "") with
          | none => exact ⟨i, Nat.le_refl i, hlt, by omega, Or.inr h2⟩
          | some key =>
            rw [h1, h2] at he
            dsimp only at he
            cases hrec : framesGo lines stop fuel (i + 2) with
            | ok rest =>
              rw [hrec] at he
              dsimp only at he
              exact Except.noConfusion he
            | error e2 =>
              obtain ⟨j, hj1, hj2, hj3, hj4⟩ :=
                (ih (i + 2) (by omega)).mp ⟨e2, hrec⟩
              exact ⟨j, by omega, hj2, by omega, hj4⟩
      · rintro ⟨j, hj1, hj2, hj3, hbad⟩
        by_cases hji : j = i
        · subst hji
          cases h1 : matchRe1 (lines.getD j "") with
          | none => exact ⟨.invalidFrame, rfl⟩
          | some pts =>
            cases h2 : matchRe2 (lines.getD (j + 1) "") with
            | none => exact ⟨.invalidFrame, rfl⟩
            | some key =>
              rcases hbad with hb | hb
              · rw [h1] at hb
                exact Option.noConfusion hb
              · rw [h2] at hb
                exact Option.noConfusion hb
        · have hj4 : i + 2 ≤ j := by omega
          obtain ⟨e2, he2⟩ :=
            (ih (i + 2) (by omega)).mpr ⟨j, hj4, hj2, by omega, hbad⟩
          cases h1 : matchRe1 (lines.getD i "") with
          | none => exact ⟨.invalidFrame, rfl⟩
          | some pts =>
            cases h2 : matchRe2 (lines.getD (i + 1) "") with
            | none => exact ⟨.invalidFrame, rfl⟩
            | some key => exact ⟨e2, by rw [he2]⟩
    · rw [framesGo_succ, if_neg hlt]
      constructor
      · rintro ⟨e, he⟩
        exact Except.noConfusion he
      · rintro ⟨j, h1, h2, _, _⟩
        omega

theorem pyGetStr_streamline {lines : List String} {sPos : Nat}
    (hlen : sPos < lines.length) :
    ∃ line, pyGetStr lines ((sPos : Int) + 1 - 2) = some line := by
  unfold pyGetStr
  by_cases h0 : (0 : Int) ≤ (sPos : Int) + 1 - 2
  · rw [if_pos h0]
    have hlt : ((sPos : Int) + 1 - 2).toNat < lines.length := by omega
    exact ⟨lines[((sPos : Int) + 1 - 2).toNat],
      by simp [List.getElem?_eq_getElem hlt]⟩
  · rw [if_neg h0]
    have h1 : (0 : Int) ≤ (lines.length : Int) + ((sPos : Int) + 1 - 2) := by
      omega
    rw [if_pos h1]
    have hlt : ((lines.length : Int) + ((sPos : Int) + 1 - 2)).toNat <
        lines.length := by omega
    exact ⟨lines[((lines.length : Int) + ((sPos : Int) + 1 - 2)).toNat],
      by simp [List.getElem?_eq_getElem hlt]⟩

theorem parseTimeBase_error_kinds {tb : String} {e : LwiError}
    (h : parseTimeBase tb = .error e) : e = .invalidTimeBase := by
  unfold parseTimeBase at h
  split at h
  · split at h
    · exact Except.noConfusion h
    · cases h
      rfl
  · cases h
    rfl

theorem parseTimeBase_error_iff (tb : String) :
    (∃ e, parseTimeBase tb = .error e) ↔ badTimeBase tb := by
  unfold badTimeBase
  constructor
  · rintro ⟨e, he⟩ ⟨a, b, n, d, hsplit, hn, hd⟩
    unfold parseTimeBase at he
    rw [hsplit] at he
    dsimp only at he
    rw [hn, hd] at he
    dsimp only at he
    exact Except.noConfusion he
  · intro hbad
    unfold parseTimeBase
    cases hsplit : pySplit '/' tb with
    | nil => exact ⟨.invalidTimeBase, rfl⟩
    | cons a tl =>
      cases tl with
      | nil => exact ⟨.invalidTimeBase, rfl⟩
      | cons b tl2 =>
        cases tl2 with
        | cons c tl3 => exact ⟨.invalidTimeBase, rfl⟩
        | nil =>
          dsimp only
          cases hn : pyInt? a with
          | none => exact ⟨.invalidTimeBase, rfl⟩
          | some n =>
            cases hd : pyInt? b with
            | none => exact ⟨.invalidTimeBase, rfl⟩
            | some d => exact absurd ⟨a, b, n, d, hsplit, hn, hd⟩ hbad

theorem framesOf_markers {lines : List String} {fs : List LWIndexFrame}
    (h : framesOf lines = .ok fs) :
    ∃ sPos ePos, lines.findIdx? (· == "</StreamInfo>") = some sPos ∧
      lines.findIdx? (· == "</LibavReaderIndex>") = some ePos ∧
      framesLoop lines ePos (sPos + 1) = .ok fs := by
  unfold framesOf at h
  cases hs : lines.findIdx? (· == "</StreamInfo>") with
  | none => rw [hs] at h; exact Except.noConfusion h
  | some sPos =>
    rw [hs] at h
    dsimp only at h
    cases hE : lines.findIdx? (· == "</LibavReaderIndex>") with
    | none => rw [hE] at h; exact Except.noConfusion h
    | some ePos =>
      rw [hE] at h
      dsimp only at h
      exact ⟨sPos, ePos, rfl, rfl, h⟩

theorem framesOf_error_kinds {lines : List String} {e : LwiError}
    (h : framesOf lines = .error e) : e ≠ .divisionByZero := by
  unfold framesOf at h
  cases hs : lines.findIdx? (· == "</StreamInfo>") with
  | none =>
    rw [hs] at h
    cases h
    simp
  | some sPos =>
    rw [hs] at h
    dsimp only at h
    cases hE : lines.findIdx? (· == "</LibavReaderIndex>") with
    | none =>
      rw [hE] at h
      cases h
      simp
    | some ePos =>
      rw [hE] at h
      dsimp only at h
      rcases framesGo_error_kinds h with rfl | rfl <;> simp

theorem timeBaseOf_error_elim {lines : List String} {e : LwiError} {sPos : Nat}
    (h : timeBaseOf lines = .error e)
    (hs : lines.findIdx? (· == "</StreamInfo>") = some sPos) :
    pyGetStr lines ((sPos : Int) + 1 - 2) = none ∨
    ∃ line, pyGetStr lines ((sPos : Int) + 1 - 2) = some line ∧
      (matchStreamInfo line = none ∨
       ∃ tb, matchStreamInfo line = some tb ∧ parseTimeBase tb = .error e) := by
  unfold timeBaseOf at h
  rw [hs] at h
  dsimp only at h
  cases hg : pyGetStr lines ((sPos : Int) + 1 - 2) with
  | none => exact Or.inl rfl
  | some line =>
    rw [hg] at h
    dsimp only at h
    cases hm : matchStreamInfo line with
    | none => exact Or.inr ⟨line, rfl, Or.inl hm⟩
    | some tb =>
      rw [hm] at h
      dsimp only at h
      exact Or.inr ⟨line, rfl, Or.inr ⟨tb, hm, h⟩⟩

theorem timeBaseOf_error_kinds {lines : List String} {e : LwiError}
    (h : timeBaseOf lines = .error e) : e ≠ .divisionByZero := by
  unfold timeBaseOf at h
  split at h
  · cases h
    simp
  · split at h
    · cases h
      simp
    · split at h
      · cases h
        simp
      · rw [parseTimeBase_error_kinds h]
        simp

theorem info_error_of_framesOf {lines : List String} {e : LwiError}
    (h : framesOf lines = .error e) : info_from_lwindex lines = .error e := by
  unfold info_from_lwindex
  rw [except_bind_error _ h]

theorem info_error_of_timeBaseOf {lines : List String} {fs : List LWIndexFrame}
    {e : LwiError} (hf : framesOf lines = .ok fs)
    (h : timeBaseOf lines = .error e) : info_from_lwindex lines = .error e := by
  unfold info_from_lwindex
  rw [except_bind_ok _ hf]
  dsimp only
  rw [except_bind_error _ h]

theorem info_error_elim {lines : List String} {e : LwiError}
    (h : info_from_lwindex lines = .error e) (hne : e ≠ .divisionByZero) :
    framesOf lines = .error e ∨
    ∃ fs, framesOf lines = .ok fs ∧ timeBaseOf lines = .error e := by
  unfold info_from_lwindex at h
  cases hf : framesOf lines with
  | error e2 =>
    rw [except_bind_error _ hf] at h
    cases h
    exact Or.inl rfl
  | ok fs =>
    rw [except_bind_ok _ hf] at h
    cases ht : timeBaseOf lines with
    | error e2 =>
      rw [except_bind_error _ ht] at h
      cases h
      exact Or.inr ⟨fs, rfl, rfl⟩
    | ok p =>
      obtain ⟨num, den⟩ := p
      rw [except_bind_ok _ ht] at h
      dsimp only at h
      by_cases hc : den = 0 ∧ sortFrames fs ≠ []
      · rw [if_pos hc] at h
        cases h
        exact absurd rfl hne
      · rw [if_neg hc] at h
        exact Except.noConfusion h

/-- C4 amended: `info_from_lwindex` fails with a format/validation error
(`ValueError`, i.e. any error other than the `ZeroDivisionError` raised by a
zero time-base denominator with a non-empty frame list) exactly when a
required section marker is absent, some two-line frame block between the
markers fails to match the expected field patterns, or the StreamInfo line
(the line indexed two below the frame section start, with Python negative
indexing) fails to match the StreamInfo pattern or carries a time-base field
that is not two `/`-separated `int()`-parsable parts. -/
theorem info_from_lwindex_format_error_iff (lines : List String) :
    (∃ e, info_from_lwindex lines = .error e ∧ e ≠ .divisionByZero) ↔
      (lines.findIdx? (· == "</StreamInfo>") = none ∨
       lines.findIdx? (· == "</LibavReaderIndex>") = none ∨
       ∃ sPos ePos,
         lines.findIdx? (· == "</StreamInfo>") = some sPos ∧
         lines.findIdx? (· == "</LibavReaderIndex>") = some ePos ∧
         ((∃ j, sPos + 1 ≤ j ∧ j < ePos ∧ (j - (sPos + 1)) % 2 = 0 ∧
             frameBlockBad lines j) ∨
          (∃ line, pyGetStr lines ((sPos : Int) + 1 - 2) = some line ∧
            (matchStreamInfo line = none ∨
             ∃ tb, matchStreamInfo line = some tb ∧ badTimeBase tb)))) := by
  constructor
  · rintro ⟨e, he, hne⟩
    rcases info_error_elim he hne with hf | ⟨fs, hf, ht⟩
    · unfold framesOf at hf
      cases hs : lines.findIdx? (· == "</StreamInfo>") with
      | none => exact Or.inl rfl
      | some sPos =>
        rw [hs] at hf
        dsimp only at hf
        cases hE : lines.findIdx? (· == "</LibavReaderIndex>") with
        | none => exact Or.inr (Or.inl rfl)
        | some ePos =>
          rw [hE] at hf
          dsimp only at hf
          obtain ⟨hlt, -, -⟩ := List.findIdx?_eq_some_iff_getElem.mp hE
          obtain ⟨j, hj⟩ := (framesGo_error_iff lines ePos hlt
            (ePos - (sPos + 1)) (sPos + 1) (Nat.le_refl _)).mp ⟨e, hf⟩
          exact Or.inr (Or.inr ⟨sPos, ePos, rfl, rfl, Or.inl ⟨j, hj⟩⟩)
    · obtain ⟨sPos, ePos, hs, hE, -⟩ := framesOf_markers hf
      rcases timeBaseOf_error_elim ht hs with hg | ⟨line, hg, hrest⟩
      · obtain ⟨hslt, -, -⟩ := List.findIdx?_eq_some_iff_getElem.mp hs
        obtain ⟨l2, hl2⟩ := pyGetStr_streamline hslt
        rw [hl2] at hg
        exact Option.noConfusion hg
      · rcases hrest with hm | ⟨tb, hm, hp⟩
        · exact Or.inr (Or.inr ⟨sPos, ePos, hs, hE, Or.inr ⟨line, hg, Or.inl hm⟩⟩)
        · exact Or.inr (Or.inr ⟨sPos, ePos, hs, hE, Or.inr ⟨line, hg,
            Or.inr ⟨tb, hm, (parseTimeBase_error_iff tb).mp ⟨e, hp⟩⟩⟩⟩)
  · intro h
    rcases h with hs | hE | ⟨sPos, ePos, hs, hE, hcase⟩
    · refine ⟨.markerMissing, info_error_of_framesOf ?_, by simp⟩
      unfold framesOf
      rw [hs]
    · refine ⟨.markerMissing, info_error_of_framesOf ?_, by simp⟩
      unfold framesOf
      cases hs2 : lines.findIdx? (· == "</StreamInfo>") with
      | none => rfl
      | some sPos =>
        dsimp only
        rw [hE]
    · rcases hcase with ⟨j, hj1, hj2, hj3, hbad⟩ | ⟨line, hg, hrest⟩
      · obtain ⟨hlt, -, -⟩ := List.findIdx?_eq_some_iff_getElem.mp hE
        obtain ⟨e, he⟩ := (framesGo_error_iff lines ePos hlt
          (ePos - (sPos + 1)) (sPos + 1) (Nat.le_refl _)).mpr ⟨j, hj1, hj2, hj3, hbad⟩
        have hf : framesOf lines = .error e := by
          unfold framesOf
          rw [hs]
          dsimp only
          rw [hE]
          exact he
        rcases framesGo_error_kinds he with rfl | rfl
        · exact ⟨_, info_error_of_framesOf hf, by simp⟩
        · exact ⟨_, info_error_of_framesOf hf, by simp⟩
      · cases hfo : framesOf lines with
        | error e => exact ⟨e, info_error_of_framesOf hfo, framesOf_error_kinds hfo⟩
        | ok fs =>
          have ht : ∃ e, timeBaseOf lines = .error e := by
            unfold timeBaseOf
            rw [hs]
            dsimp only
            rw [hg]
            dsimp only
            rcases hrest with hm | ⟨tb, hm, hbadtb⟩
            · rw [hm]
              exact ⟨.invalidStreamInfo, rfl⟩
            · rw [hm]
              dsimp only
              exact (parseTimeBase_error_iff tb).mpr hbadtb
          obtain ⟨e, he⟩ := ht
          exact ⟨e, info_error_of_timeBaseOf hfo he, timeBaseOf_error_kinds he⟩

/-- C4 counterexample: on `exampleBadCodecLines` both markers are present,
every frame block matches, and the time-base field `1/1000` is perfectly
well-formed, yet `info_from_lwindex` raises a format error — because the
`Codec` field of the StreamInfo line is malformed, a case the claim's
enumeration does not cover.  So the claim's "exactly when" fails. -/
theorem info_from_lwindex_error_outside_claim :
    info_from_lwindex exampleBadCodecLines = .error .invalidStreamInfo ∧
    "</StreamInfo>" ∈ exampleBadCodecLines ∧
    "</LibavReaderIndex>" ∈ exampleBadCodecLines ∧
    framesOf exampleBadCodecLines = .ok [⟨0, 1⟩] ∧
    parseTimeBase "1/1000" = .ok (1, 1000) := by
  refine ⟨rfl, ?_, ?_, rfl, rfl⟩ <;> decide

/-- C4 witness: the amended characterisation applied to the concrete file
`exampleBadCodecLines` (instantiating the right-hand side with the failing
StreamInfo line). -/
theorem info_from_lwindex_format_error_iff_witness :
    ∃ e, info_from_lwindex exampleBadCodecLines = .error e ∧
      e ≠ LwiError.divisionByZero :=
  (info_from_lwindex_format_error_iff exampleBadCodecLines).mpr
    (Or.inr (Or.inr ⟨1, 4, rfl, rfl,
      Or.inr ⟨"Codec=x,TimeBase=1/1000,Width=640,Height=480,Format=YUV420P8,ColorSpace=1",
        rfl, Or.inl rfl⟩⟩))

end AegisubVS
